import Mathlib

/-!
Verification development for the bulkRNASeq pipeline orchestration and
checkpoint/resume engine.

The definitions below are a shallow embedding of the Python sources:

* `src/bulkRNASeq/utils/checkpoint.py` (`CheckpointManager`)
* `src/bulkRNASeq/pipeline/step_runner.py` (`run_pipeline_step`)
* `src/bulkRNASeq/pipeline/pipeline_runner.py` (`run_full_pipeline`)
* `src/bulkRNASeq/preprocessing/pipeline_runner.py` (`run_preprocessing_pipeline`)
* `src/bulkRNASeq/postprocessing/main.py` and
  `src/bulkRNASeq/postprocessing/pipeline_runner.py`
* `src/bulkRNASeq/utils/config_handler.py` (`ConfigHandler.resolve_path`)

Python dictionaries are embedded as association lists that keep insertion
order (updating an existing key rewrites it in place, a fresh key is appended
at the end, exactly as a Python `dict`), strings as Lean `String`, the JSON
document written by `json.dump` / read by `json.load` as an explicit `Json`
tree, and the backing file as `Option Json` (`none` = the file is absent).
-/

namespace BulkRNASeq

/-! ## Association lists with Python `dict` update semantics -/

/-- Python `d[k] = v` on an insertion-ordered dictionary represented as an
association list: an existing key is overwritten in place, a new key is
appended at the end. -/
def dictSet {α : Type} : List (String × α) → String → α → List (String × α)
  | [], k, v => [(k, v)]
  | (k', v') :: rest, k, v =>
      if k' = k then (k, v) :: rest else (k', v') :: dictSet rest k v

/-- Python `d.get(k)`: the value stored at the first occurrence of `k`. -/
def dictGet {α : Type} : List (String × α) → String → Option α
  | [], _ => none
  | (k', v') :: rest, k => if k' = k then some v' else dictGet rest k

/-! ## Checkpoint records (`utils/checkpoint.py`) -/

/-- Record stored for one step in `CheckpointManager.save_checkpoint`:
`{'status': ..., 'timestamp': ..., 'metadata': ...}`. Metadata values are
strings (the only metadata the orchestrator writes is `{'error': str(e)}`). -/
structure StepRecord where
  status : String
  timestamp : String
  metadata : List (String × String)
  deriving Repr, DecidableEq

/-- In-memory checkpoint document: the dictionary built by
`CheckpointManager._load_checkpoints` with keys `last_completed_step`,
`steps` and `last_updated`. -/
structure Checkpoints where
  last_completed_step : Option String
  steps : List (String × StepRecord)
  last_updated : Option String
  deriving Repr, DecidableEq

/-- Fresh document returned by `_load_checkpoints` when the backing file is
absent: `{'last_completed_step': None, 'steps': {}, 'last_updated': None}`. -/
def emptyCheckpoints : Checkpoints :=
  { last_completed_step := none, steps := [], last_updated := none }

/-- Status recorded for `step`, when a record exists
(`checkpoints['steps'].get(step)`). -/
def statusOf (c : Checkpoints) (step : String) : Option String :=
  (dictGet c.steps step).map StepRecord.status

/-- Embedding of `CheckpointManager.should_skip_step`:
`self.checkpoints.get('steps', {}).get(step, {}).get('status') == 'completed'`. -/
def should_skip_step (c : Checkpoints) (step : String) : Bool :=
  match dictGet c.steps step with
  | some r => r.status = "completed"
  | none => false

/-- Embedding of `CheckpointManager.get_last_successful_step`. -/
def get_last_successful_step (c : Checkpoints) : Option String :=
  c.last_completed_step

/-- Pure core of `CheckpointManager.save_checkpoint` (the in-memory update):
overwrite `steps[step]`, refresh `last_updated`, and set
`last_completed_step` only when the status being saved is `'completed'`.
`now` stands for `datetime.now().isoformat()`. -/
def save_checkpoint (c : Checkpoints) (step status now : String)
    (metadata : List (String × String)) : Checkpoints :=
  let c' : Checkpoints :=
    { c with
      steps := dictSet c.steps step
        { status := status, timestamp := now, metadata := metadata },
      last_updated := some now }
  if status = "completed" then { c' with last_completed_step := some step } else c'

/-! ## JSON persistence (`json.dump` / `json.load`) -/

/-- JSON values that the checkpoint document uses: `null`, strings, and
objects (insertion-ordered, as produced by `json.dump` on a `dict`). -/
inductive Json where
  | null : Json
  | str (s : String) : Json
  | obj (fields : List (String × Json)) : Json
  deriving Repr

/-- Serialization of an optional string (`None` ↦ `null`). -/
def optToJson : Option String → Json
  | none => Json.null
  | some s => Json.str s

/-- Serialization of one step record, field order as written by `json.dump`. -/
def StepRecord.toJson (r : StepRecord) : Json :=
  Json.obj
    [("status", Json.str r.status),
     ("timestamp", Json.str r.timestamp),
     ("metadata", Json.obj (r.metadata.map (fun p => (p.1, Json.str p.2))))]

/-- Serialization of the whole checkpoint document, field order as in
`_load_checkpoints` / `save_checkpoint`. -/
def Checkpoints.toJson (c : Checkpoints) : Json :=
  Json.obj
    [("last_completed_step", optToJson c.last_completed_step),
     ("steps", Json.obj (c.steps.map (fun p => (p.1, p.2.toJson)))),
     ("last_updated", optToJson c.last_updated)]

/-- Parse a `null`-or-string field. -/
def optFromJson : Json → Option (Option String)
  | Json.null => some none
  | Json.str s => some (some s)
  | _ => none

/-- Parse a string field. -/
def strFromJson : Json → Option String
  | Json.str s => some s
  | _ => none

/-- Parse every entry of a JSON object with a per-value parser, failing when
any value fails to parse. -/
def parseEntries {α : Type} (f : Json → Option α) :
    List (String × Json) → Option (List (String × α))
  | [] => some []
  | (k, j) :: rest => do
      let v ← f j
      let vs ← parseEntries f rest
      pure ((k, v) :: vs)

/-- Parse a metadata object (all values strings). -/
def metaFromJson : Json → Option (List (String × String))
  | Json.obj fields => parseEntries strFromJson fields
  | _ => none

/-- Parse one step record. -/
def StepRecord.fromJson : Json → Option StepRecord
  | Json.obj fields => do
      let st ← dictGet fields "status" >>= strFromJson
      let ts ← dictGet fields "timestamp" >>= strFromJson
      let md ← dictGet fields "metadata" >>= metaFromJson
      pure { status := st, timestamp := ts, metadata := md }
  | _ => none

/-- Parse the whole checkpoint document. -/
def Checkpoints.fromJson : Json → Option Checkpoints
  | Json.obj fields => do
      let lcs ← dictGet fields "last_completed_step" >>= optFromJson
      let stepsJson ← dictGet fields "steps"
      let steps ←
        match stepsJson with
        | Json.obj entries => parseEntries StepRecord.fromJson entries
        | _ => none
      let lu ← dictGet fields "last_updated" >>= optFromJson
      pure { last_completed_step := lcs, steps := steps, last_updated := lu }
  | _ => none

/-! ## The checkpoint store against its backing file -/

/-- Embedding of `CheckpointManager._load_checkpoints`: when the backing file
is absent the empty document is returned; when it is present its JSON content
is parsed (`none` models a document that does not have the expected shape). -/
def load_checkpoints : Option Json → Option Checkpoints
  | none => some emptyCheckpoints
  | some j => Checkpoints.fromJson j

/-- State of a `CheckpointManager`: the backing file's content plus the
in-memory document `self.checkpoints`. -/
structure ManagerState where
  file : Option Json
  checkpoints : Checkpoints
  deriving Repr

/-- Embedding of `CheckpointManager.__init__` for one checkpoint directory. -/
def managerInit (file : Option Json) : Option ManagerState :=
  (load_checkpoints file).map (fun c => { file := file, checkpoints := c })

/-- Embedding of the full `CheckpointManager.save_checkpoint`: update the
in-memory document and write its serialization to the backing file. -/
def ManagerState.save (st : ManagerState) (step status now : String)
    (metadata : List (String × String)) : ManagerState :=
  let c := save_checkpoint st.checkpoints step status now metadata
  { file := some c.toJson, checkpoints := c }

/-- Embedding of `CheckpointManager.clear_checkpoints`: delete the backing
file and reset the in-memory document. -/
def ManagerState.clear (_st : ManagerState) : ManagerState :=
  { file := none, checkpoints := emptyCheckpoints }

/-! ## The step runner (`pipeline/step_runner.py`) and the control loop
(`pipeline/pipeline_runner.py`) -/

/-- Result of one `run_pipeline_step` call: the final manager state, whether
the step body (`pipeline_runner(config, checkpoint_mgr, sample_name)`) was
invoked, and whether the call re-raised an exception. -/
structure StepRunResult where
  state : ManagerState
  bodyInvoked : Bool
  raised : Bool
  deriving Repr

/-- Embedding of `run_pipeline_step`: when `should_skip_step` holds the
function logs and returns at once; otherwise it saves `running`, invokes the
step body (abstracted as a function from the manager state to a success flag
and an updated state, since the body itself saves checkpoints), then saves
`completed` on success or saves `failed` with the error message and
re-raises. -/
def run_pipeline_step (step : String) (now : String)
    (body : ManagerState → Bool × ManagerState) (st : ManagerState) : StepRunResult :=
  if should_skip_step st.checkpoints step then
    { state := st, bodyInvoked := false, raised := false }
  else
    let st₁ := st.save step "running" now []
    let res := body st₁
    if res.1 then
      { state := res.2.save step "completed" now [], bodyInvoked := true, raised := false }
    else
      { state := res.2.save step "failed" now
          [("error", "Pipeline step " ++ step ++ " failed")],
        bodyInvoked := true, raised := true }

/-- Result of the `run_full_pipeline` control loop: final state, the names of
the steps whose body was invoked, and whether the process exited non-zero. -/
structure PipelineRunResult where
  state : ManagerState
  invoked : List String
  exitedNonzero : Bool
  deriving Repr

/-- Loop body of `run_full_pipeline`: each step runs through
`run_pipeline_step`; a step that raises aborts the loop with `sys.exit(1)`. -/
def run_steps (now : String) (bodies : String → ManagerState → Bool × ManagerState) :
    List String → ManagerState → PipelineRunResult
  | [], st => { state := st, invoked := [], exitedNonzero := false }
  | s :: rest, st =>
      let r := run_pipeline_step s now (bodies s) st
      if r.raised then
        { state := r.state,
          invoked := if r.bodyInvoked then [s] else [],
          exitedNonzero := true }
      else
        let rr := run_steps now bodies rest r.state
        { rr with invoked := (if r.bodyInvoked then [s] else []) ++ rr.invoked }

/-- Embedding of `run_full_pipeline`: without `--resume` the checkpoint store
is cleared first; with `--resume` it is kept; then the fixed step list
`['qc', 'alignment', 'quantification']` runs in order. -/
def run_full_pipeline (resume : Bool) (now : String)
    (bodies : String → ManagerState → Bool × ManagerState) (st : ManagerState) :
    PipelineRunResult :=
  let st' := if resume then st else st.clear
  run_steps now bodies ["qc", "alignment", "quantification"] st'

/-! ## Step flags and restart-from policy
(`preprocessing/pipeline_runner.py`, lines 99–119) -/

/-- Step-execution flags initialised to `True` at the head of
`run_preprocessing_pipeline`. -/
structure StepFlags where
  run_fastqc_step : Bool
  run_alignment_step : Bool
  run_quantification_step : Bool
  deriving Repr, DecidableEq

/-- Initial flag values. -/
def initFlags : StepFlags :=
  { run_fastqc_step := true, run_alignment_step := true, run_quantification_step := true }

/-- Embedding of the restart-from branch chain of
`run_preprocessing_pipeline`: the configured `parameters.restart_from` value
turns off the flags of the steps before the restart point. The checkpoint
store is not consulted anywhere in this logic. -/
def applyRestartFrom (restart_from : Option String) (f : StepFlags) : StepFlags :=
  match restart_from with
  | none => f
  | some r =>
      if r = "alignment" then { f with run_fastqc_step := false }
      else if r = "quantification" then
        { f with run_fastqc_step := false, run_alignment_step := false }
      else if r = "multiqc" then
        { run_fastqc_step := false, run_alignment_step := false,
          run_quantification_step := false }
      else f

/-- Canonical stage order of the preprocessing pipeline. -/
def canonicalSteps : List String := ["fastqc", "alignment", "quantification", "multiqc"]

/-- Position of a step in the canonical order (steps outside the order sort
last). -/
def canonicalIdx (s : String) : Nat :=
  if s = "fastqc" then 0
  else if s = "alignment" then 1
  else if s = "quantification" then 2
  else if s = "multiqc" then 3
  else 4

/-- Whether the flags leave a given step enabled. The fastqc, alignment and
quantification steps are guarded by their flag; the MultiQC step has no flag
(it is guarded only by the `pipeline_steps` configuration entry), so the
restart logic never disables it. -/
def flagEnabled (f : StepFlags) (s : String) : Bool :=
  if s = "fastqc" then f.run_fastqc_step
  else if s = "alignment" then f.run_alignment_step
  else if s = "quantification" then f.run_quantification_step
  else true

/-! ## Workspace path resolution (`utils/config_handler.py: resolve_path`) -/

/-- POSIX test `Path(p).is_absolute()`: the path starts with `/`. -/
def isAbsolute (p : String) : Bool :=
  p.data.head? = some '/'

/-- Test used to model `pathlib`'s join: whether the root already ends with a
path separator. -/
def endsWithSep (p : String) : Bool :=
  p.data.getLast? = some '/'

/-- Embedding of `PurePosixPath(root) / p` for a relative `p`: concatenation
with a single separator inserted when needed. -/
def joinPath (root p : String) : String :=
  root ++ (if endsWithSep root then p else "/" ++ p)

/-- Embedding of `ConfigHandler.resolve_path`: `None` passes through, an
absolute path is returned unchanged, a relative path is joined with the
workspace root. -/
def resolve_path (workspace_root : String) : Option String → Option String
  | none => none
  | some s => if isAbsolute s then some s else some (joinPath workspace_root s)

/-! ## Atomicity of the checkpoint write (`save_checkpoint`, lines 43–48) -/

/-- Contents of the backing file observable while `save_checkpoint` writes,
in order: `open(self.checkpoint_file, 'w')` first truncates the file to the
empty document, then `json.dump(self.checkpoints, f, indent=2)` writes the
new serialized text. The final element is the state after `save` returns. -/
def save_checkpoint_file_states (newDoc : String) : List String :=
  ["", newDoc]

/-- Atomicity from a reader's perspective: every file content observable
during the write is either the old document or the new one. -/
def atomicWrite (oldDoc newDoc : String) (states : List String) : Prop :=
  ∀ s ∈ states, s = oldDoc ∨ s = newDoc

/-! ## Configuration values and sample-token substitution
(`postprocessing/main.py`, lines 40–46) -/

/-- Values of the loaded YAML configuration document. -/
inductive ConfigValue where
  | str (s : String) : ConfigValue
  | num (n : Int) : ConfigValue
  | bool (b : Bool) : ConfigValue
  | dict (entries : List (String × ConfigValue)) : ConfigValue
  | list (items : List ConfigValue) : ConfigValue
  | null : ConfigValue
  deriving Repr

/-- Test whether `pat` occurs as a contiguous run inside `s`
(Python `pat in s`). -/
def containsSeq (pat : List Char) : List Char → Bool
  | [] => pat.isEmpty
  | c :: rest => pat.isPrefixOf (c :: rest) || containsSeq pat rest

/-- Python substring test `pat in s`. -/
def pyContains (s pat : String) : Bool :=
  containsSeq pat.data s.data

/-- Replacement of every non-overlapping occurrence of `pat`, scanning left
to right (Python `s.replace(pat, rep)` for a nonempty `pat`). The fuel
argument keeps the recursion structural; each call consumes at least one
character, so fuel equal to the input length suffices. -/
def replaceAux (pat rep : List Char) : Nat → List Char → List Char
  | _, [] => []
  | 0, s => s
  | fuel + 1, c :: rest =>
      if pat.isPrefixOf (c :: rest) then
        rep ++ replaceAux pat rep fuel (List.drop (pat.length - 1) rest)
      else
        c :: replaceAux pat rep fuel rest

/-- Python `s.replace(pat, rep)` for the nonempty patterns used here. -/
def pyReplace (s pat rep : String) : String :=
  ⟨replaceAux pat.data rep.data s.data.length s.data⟩

/-- Literal placeholder token substituted by `--sample`. -/
def sampleToken : String := "$\x7bsample\x7d"

/-- Substitution applied to one direct value of a top-level section:
`if isinstance(value, str) and "${sample}" in value:
value.replace("${sample}", args.sample)`. -/
def substValue (sample : String) : ConfigValue → ConfigValue
  | ConfigValue.str v =>
      if pyContains v sampleToken then ConfigValue.str (pyReplace v sampleToken sample)
      else ConfigValue.str v
  | other => other

/-- Substitution applied to one top-level section: only sections that are
dictionaries are entered, and only their direct values are touched. -/
def substSection (sample : String) : ConfigValue → ConfigValue
  | ConfigValue.dict entries =>
      ConfigValue.dict (entries.map (fun kv => (kv.1, substValue sample kv.2)))
  | other => other

/-- Embedding of the sample-replacement loop of `postprocessing/main.py`:
for each top-level section of the configuration that is a dictionary, each
direct string value containing the token is rewritten. The update is an
in-place assignment `config[section][key] = ...` in the source; the result
below is the content of `config` after the loop. -/
def process_sample_replacements (sample : String)
    (config : List (String × ConfigValue)) : List (String × ConfigValue) :=
  config.map (fun sec => (sec.1, substSection sample sec.2))

/-- Lookup of a nested configuration value along a key path. -/
def getPath : ConfigValue → List String → Option ConfigValue
  | v, [] => some v
  | ConfigValue.dict entries, k :: rest =>
      match dictGet entries k with
      | some v => getPath v rest
      | none => none
  | _, _ :: _ => none

/-! ## Postprocessing pipeline and the fail-fast flag
(`postprocessing/main.py` lines 77–90, `postprocessing/pipeline_runner.py`) -/

/-- Parameters section relevant to the failure policy:
`config['parameters']['fail_fast'] = not args.continue_on_error`. -/
structure PostParams where
  fail_fast : Bool
  deriving Repr, DecidableEq

/-- Environment of one postprocessing run: whether each analysis body
succeeds when executed (`false` models the body raising, or `eda` returning
a falsy result). -/
structure PostEnv where
  edaOk : Bool
  qaOk : Bool
  kallistoOk : Bool
  deriving Repr, DecidableEq

/-- Trace of one `run_postprocessing_pipeline` call: checkpoint document on
return, the analyses whose body started executing (in order), and the
returned success flag. -/
structure PostTrace where
  checkpoints : Checkpoints
  executed : List String
  success : Bool
  deriving Repr, DecidableEq

/-- Embedding of `run_postprocessing_pipeline` over its first three analyses
(`eda`, `qa`, `kallisto`) with a checkpoint manager present. The
`params` argument is threaded in exactly as the source stores it and — as in
the source — never consulted: an `eda` failure returns `False` at once; a
`qa` failure propagates to the outer `except` handler, which returns
`False`; a `kallisto` failure is swallowed by the inner `try` and execution
continues. Only `completed` statuses are ever saved. -/
def run_postprocessing_pipeline (params : PostParams) (env : PostEnv)
    (now : String) (c : Checkpoints) : PostTrace :=
  if ¬ should_skip_step c "eda" ∧ ¬ env.edaOk then
    { checkpoints := c, executed := ["eda"], success := false }
  else
    let c₁ := if should_skip_step c "eda" then c
              else save_checkpoint c "eda" "completed" now []
    let ex₁ : List String := if should_skip_step c "eda" then [] else ["eda"]
    if ¬ should_skip_step c₁ "qa" ∧ ¬ env.qaOk then
      { checkpoints := c₁, executed := ex₁ ++ ["qa"], success := false }
    else
      let c₂ := if should_skip_step c₁ "qa" then c₁
                else save_checkpoint c₁ "qa" "completed" now []
      let ex₂ := if should_skip_step c₁ "qa" then ex₁ else ex₁ ++ ["qa"]
      let c₃ := if should_skip_step c₂ "kallisto" then c₂
                else if env.kallistoOk then
                  save_checkpoint c₂ "kallisto" "completed" now []
                else c₂
      let ex₃ := if should_skip_step c₂ "kallisto" then ex₂ else ex₂ ++ ["kallisto"]
      { checkpoints := c₃, executed := ex₃, success := true }

/-- Embedding of the tail of `postprocessing/main.py`: the CLI stores
`fail_fast = not continue_on_error` into the parameters and exits `0` iff
the pipeline returned success. -/
def postprocessing_main_exit (continue_on_error : Bool) (env : PostEnv)
    (now : String) (c : Checkpoints) : Nat :=
  let params : PostParams := { fail_fast := !continue_on_error }
  let tr := run_postprocessing_pipeline params env now c
  if tr.success then 0 else 1

/-! ## Multi-backend alignment loop
(`preprocessing/pipeline_runner.py`, lines 149–296) -/

/-- One configured aligner backend as the loop sees it: its name, whether
`config['aligners'][name]` is nonempty, whether its index path is specified,
whether its index files exist on disk (checked for hisat2), and the result
of running it (`none` models the tool raising, which the per-aligner
`except` swallows). -/
structure AlignerSpec where
  name : String
  hasConfig : Bool
  indexSpecified : Bool
  indexExists : Bool
  runResult : Option String
  deriving Repr, DecidableEq

/-- Outcome of one iteration of the aligner loop: `some bam` when the
backend produced a result recorded into `stats['aligners']`, `none` when the
iteration hit a `continue` (missing configuration, unsupported name, missing
index) or the `except` branch (the backend raised). No branch aborts the
loop. -/
def alignerOutcome (a : AlignerSpec) : Option String :=
  if ¬ a.hasConfig then none
  else if a.name = "hisat2" then
    if ¬ a.indexSpecified then none
    else if ¬ a.indexExists then none
    else a.runResult
  else if a.name = "kallisto" ∨ a.name = "salmon" then
    if ¬ a.indexSpecified then none
    else a.runResult
  else none

/-- Entries accumulated into `stats['aligners']` by the loop, in order. -/
def alignerStats : List AlignerSpec → List (String × String)
  | [] => []
  | a :: rest =>
      match alignerOutcome a with
      | some bam => (a.name, bam) :: alignerStats rest
      | none => alignerStats rest

/-- Embedding of the alignment portion of `run_preprocessing_pipeline`:
the loop collects per-backend results, then the stats file is written and
the function returns `True` unconditionally — whether or not any backend
produced a result. -/
def run_preprocessing_alignment (aligners : List AlignerSpec) :
    List (String × String) × Bool :=
  (alignerStats aligners, true)

/-- Status that `run_pipeline_step` records for a step from the pipeline
function's return value (`completed` on a truthy return, `failed` via the
raised `RuntimeError` otherwise). -/
def recordedStatus (success : Bool) : String :=
  if success then "completed" else "failed"

/-! ## Theorems -/

theorem dictGet_dictSet_self {α : Type} (d : List (String × α)) (k : String) (v : α) :
    dictGet (dictSet d k v) k = some v := by
  induction d with
  | nil => simp [dictGet, dictSet]
  | cons hd tl ih =>
      rcases hd with ⟨k', v'⟩
      by_cases h : k' = k
      · simp [dictGet, dictSet, h]
      · simp [dictGet, dictSet, h, ih]

theorem dictGet_dictSet_ne {α : Type} (d : List (String × α)) (k k' : String) (v : α)
    (h : k' ≠ k) : dictGet (dictSet d k v) k' = dictGet d k' := by
  have hkk' : ¬ k = k' := fun e => h e.symm
  induction d with
  | nil => simp [dictGet, dictSet, hkk']
  | cons hd tl ih =>
      rcases hd with ⟨k₀, v₀⟩
      by_cases hk : k₀ = k
      · subst hk
        simp [dictGet, dictSet, hkk']
      · by_cases hk' : k₀ = k'
        · simp [dictGet, dictSet, hk, hk', h]
        · simp [dictGet, dictSet, hk, hk', ih]

theorem parseEntries_map {α : Type} (f : Json → Option α) (g : α → Json)
    (hfg : ∀ a, f (g a) = some a) (l : List (String × α)) :
    parseEntries f (l.map (fun p => (p.1, g p.2))) = some l := by
  induction l with
  | nil => rfl
  | cons hd tl ih =>
      rcases hd with ⟨k, a⟩
      simp [parseEntries, hfg, ih, bind, Option.bind]

theorem metaFromJson_toJson (md : List (String × String)) :
    metaFromJson (Json.obj (md.map (fun p => (p.1, Json.str p.2)))) = some md := by
  simpa [metaFromJson] using parseEntries_map strFromJson Json.str (fun _ => rfl) md

theorem stepRecord_fromJson_toJson (r : StepRecord) :
    StepRecord.fromJson r.toJson = some r := by
  simp [StepRecord.toJson, StepRecord.fromJson, dictGet, strFromJson,
    metaFromJson_toJson, bind, Option.bind]

theorem optFromJson_optToJson (o : Option String) :
    optFromJson (optToJson o) = some o := by
  cases o <;> rfl

/-- JSON round-trip of the full checkpoint document. -/
theorem checkpoints_fromJson_toJson (c : Checkpoints) :
    Checkpoints.fromJson c.toJson = some c := by
  simp [Checkpoints.toJson, Checkpoints.fromJson, dictGet,
    optFromJson_optToJson, bind, Option.bind,
    parseEntries_map StepRecord.fromJson StepRecord.toJson stepRecord_fromJson_toJson]

theorem save_checkpoint_steps (c : Checkpoints) (t status now : String)
    (md : List (String × String)) :
    (save_checkpoint c t status now md).steps =
      dictSet c.steps t { status := status, timestamp := now, metadata := md } := by
  unfold save_checkpoint
  split <;> rfl

theorem statusOf_save_self (c : Checkpoints) (t status now : String)
    (md : List (String × String)) :
    statusOf (save_checkpoint c t status now md) t = some status := by
  simp [statusOf, save_checkpoint_steps, dictGet_dictSet_self]

theorem statusOf_save_ne (c : Checkpoints) (s t status now : String)
    (md : List (String × String)) (h : s ≠ t) :
    statusOf (save_checkpoint c t status now md) s = statusOf c s := by
  simp [statusOf, save_checkpoint_steps, dictGet_dictSet_ne _ _ _ _ h]

theorem should_skip_iff (c : Checkpoints) (s : String) :
    should_skip_step c s = true ↔ statusOf c s = some "completed" := by
  unfold should_skip_step statusOf
  cases dictGet c.steps s <;> simp

theorem run_pipeline_step_of_completed (s now : String)
    (body : ManagerState → Bool × ManagerState) (st : ManagerState)
    (h : statusOf st.checkpoints s = some "completed") :
    run_pipeline_step s now body st = { state := st, bodyInvoked := false, raised := false } := by
  unfold run_pipeline_step
  rw [if_pos ((should_skip_iff st.checkpoints s).mpr h)]

theorem statusOf_run_pipeline_step_ne (s t now : String)
    (body : ManagerState → Bool × ManagerState) (st : ManagerState)
    (hne : s ≠ t)
    (hbody : ∀ st', statusOf ((body st').2).checkpoints s = statusOf st'.checkpoints s) :
    statusOf (run_pipeline_step t now body st).state.checkpoints s =
      statusOf st.checkpoints s := by
  unfold run_pipeline_step
  split
  · rfl
  · dsimp only
    split <;>
      simp [ManagerState.save, statusOf_save_ne _ _ _ _ _ _ hne, hbody]

theorem run_steps_not_invoked (s now : String)
    (bodies : String → ManagerState → Bool × ManagerState)
    (hbodies : ∀ t st', statusOf ((bodies t st').2).checkpoints s = statusOf st'.checkpoints s)
    (steps : List String) (st : ManagerState)
    (h : statusOf st.checkpoints s = some "completed") :
    s ∉ (run_steps now bodies steps st).invoked := by
  induction steps generalizing st with
  | nil => simp [run_steps]
  | cons t rest ih =>
      by_cases hst : s = t
      · subst hst
        have hrun := run_pipeline_step_of_completed s now (bodies s) st h
        simp [run_steps, hrun, ih st h]
      · have hpres := statusOf_run_pipeline_step_ne s t now (bodies t) st hst (hbodies t)
        have h' : statusOf (run_pipeline_step t now (bodies t) st).state.checkpoints s
            = some "completed" := by rw [hpres]; exact h
        unfold run_steps
        dsimp only
        by_cases hr : (run_pipeline_step t now (bodies t) st).raised = true
        · rw [if_pos hr]
          dsimp only
          intro hmem
          refine hst ?_
          by_cases hb : (run_pipeline_step t now (bodies t) st).bodyInvoked = true
          · rw [if_pos hb] at hmem; exact List.mem_singleton.mp hmem
          · rw [if_neg hb] at hmem; simp at hmem
        · rw [if_neg hr]
          dsimp only
          intro hmem
          rcases List.mem_append.mp hmem with hmem' | hmem'
          · refine hst ?_
            by_cases hb : (run_pipeline_step t now (bodies t) st).bodyInvoked = true
            · rw [if_pos hb] at hmem'; exact List.mem_singleton.mp hmem'
            · rw [if_neg hb] at hmem'; simp at hmem'
          · exact ih _ h' hmem'

theorem save_checkpoint_completed_lcs (c : Checkpoints) (t now : String)
    (md : List (String × String)) :
    (save_checkpoint c t "completed" now md).last_completed_step = some t := by
  simp [save_checkpoint]

theorem dictGet_map_value {α β : Type} (g : α → β) (l : List (String × α)) (k : String) :
    dictGet (l.map (fun p => (p.1, g p.2))) k = (dictGet l k).map g := by
  induction l with
  | nil => rfl
  | cons hd tl ih =>
      rcases hd with ⟨k₀, v₀⟩
      by_cases h : k₀ = k <;> simp [dictGet, h, ih]

/-! ### Claim theorems -/

/-- C8: for a checkpoint directory whose backing file does not exist,
`_load_checkpoints` returns the empty record set — no step records and no
last completed step — rather than raising, and a fresh `CheckpointManager`
over such a directory initialises successfully with that empty document. -/
theorem C8_missing_file_loads_empty :
    load_checkpoints none = some emptyCheckpoints
    ∧ emptyCheckpoints.steps = []
    ∧ emptyCheckpoints.last_completed_step = none
    ∧ managerInit none = some { file := none, checkpoints := emptyCheckpoints } :=
  ⟨rfl, rfl, rfl, rfl⟩

/-- C10: `save_checkpoint` with a status other than `completed` (such as
`running` or `failed`) rewrites that step's record and the `last_updated`
field but leaves `last_completed_step` unchanged; a save with status
`completed` sets `last_completed_step` to the saved step's name. -/
theorem C10_lcs_only_on_completed (c : Checkpoints) (step status now : String)
    (md : List (String × String)) :
    ((save_checkpoint c step "completed" now md).last_completed_step = some step)
    ∧ (status ≠ "completed" →
        (save_checkpoint c step status now md).last_completed_step
            = c.last_completed_step
        ∧ (save_checkpoint c step status now md).last_updated = some now
        ∧ dictGet (save_checkpoint c step status now md).steps step
            = some { status := status, timestamp := now, metadata := md }) := by
  refine ⟨save_checkpoint_completed_lcs c step now md, fun h => ⟨?_, ?_, ?_⟩⟩
  · simp [save_checkpoint, h]
  · simp [save_checkpoint, h]
  · rw [save_checkpoint_steps]
    exact dictGet_dictSet_self c.steps step _

theorem C10_witness :
    ((save_checkpoint ⟨some "fastqc", [], some "t0"⟩ "alignment" "completed" "t1"
        []).last_completed_step = some "alignment")
    ∧ ((save_checkpoint ⟨some "fastqc", [], some "t0"⟩ "alignment" "running" "t1"
          []).last_completed_step = some "fastqc"
      ∧ (save_checkpoint ⟨some "fastqc", [], some "t0"⟩ "alignment" "running" "t1"
          []).last_updated = some "t1"
      ∧ dictGet (save_checkpoint ⟨some "fastqc", [], some "t0"⟩ "alignment" "running" "t1"
          []).steps "alignment"
          = some { status := "running", timestamp := "t1", metadata := [] }) :=
  ⟨(C10_lcs_only_on_completed ⟨some "fastqc", [], some "t0"⟩ "alignment" "running" "t1" []).1,
   (C10_lcs_only_on_completed ⟨some "fastqc", [], some "t0"⟩ "alignment" "running" "t1" []).2
     (by decide)⟩

/-- C4: `save(step, status)` followed by a load of the backing file yields
the saved document unchanged (the serialized JSON parses back to exactly the
in-memory document); in particular after `save("qc", "completed")` a fresh
manager over the written file reads a record with
`steps["qc"].status == "completed"` and `last_completed_step == "qc"`. -/
theorem C4_save_load_roundtrip (st : ManagerState) (step status now : String)
    (md : List (String × String)) :
    load_checkpoints (st.save step status now md).file
      = some (st.save step status now md).checkpoints
    ∧ ((managerInit ((st.save "qc" "completed" now []).file)).map
          (fun st' => (statusOf st'.checkpoints "qc",
                       get_last_successful_step st'.checkpoints)))
        = some (some "completed", some "qc") := by
  constructor
  · simp [ManagerState.save, load_checkpoints, checkpoints_fromJson_toJson]
  · simp [managerInit, ManagerState.save, load_checkpoints, checkpoints_fromJson_toJson,
      get_last_successful_step, statusOf_save_self, save_checkpoint_completed_lcs]

/-- C2: the claim states each checkpoint save writes to a temporary location
and renames (or equivalent), so a reader never sees a partially written
record even across a crash. The source instead truncates
`.pipeline_checkpoint.json` in place (`open(..., 'w')`) and then writes the
document into it, so the truncated empty file is an observable mid-write
state: for any nonempty old and new serialized documents, the observable
write states are not all equal to the old or to the new document. -/
theorem C2_write_not_atomic (oldDoc newDoc : String)
    (hold : oldDoc ≠ "") (hnew : newDoc ≠ "") :
    "" ∈ save_checkpoint_file_states newDoc
    ∧ ¬ atomicWrite oldDoc newDoc (save_checkpoint_file_states newDoc) := by
  constructor
  · simp [save_checkpoint_file_states]
  · intro h
    rcases h "" (by simp [save_checkpoint_file_states]) with h' | h'
    · exact hold h'.symm
    · exact hnew h'.symm

theorem C2_witness :
    "" ∈ save_checkpoint_file_states "doc2"
    ∧ ¬ atomicWrite "doc1" "doc2" (save_checkpoint_file_states "doc2") :=
  C2_write_not_atomic "doc1" "doc2" (by decide) (by decide)

/-- C3: the claim says that with `parameters.fail_fast` false
(`--continue-on-error`) a failing middle step still lets the later steps
run, is recorded `failed`, and the run exits non-zero. In the source,
`main` stores the flag but no code ever reads it: the pipeline behaves
identically for both flag values; with `eda` succeeding and `qa` raising,
execution stops before `kallisto`, no `failed` status is ever recorded, and
the process exits non-zero. -/
theorem C3_continue_on_error_ignored :
    (∀ (ff₁ ff₂ : Bool) (env : PostEnv) (now : String) (c : Checkpoints),
        run_postprocessing_pipeline ⟨ff₁⟩ env now c
          = run_postprocessing_pipeline ⟨ff₂⟩ env now c)
    ∧ (run_postprocessing_pipeline ⟨false⟩ ⟨true, false, true⟩ "t1"
          emptyCheckpoints).executed = ["eda", "qa"]
    ∧ "kallisto" ∉ (run_postprocessing_pipeline ⟨false⟩ ⟨true, false, true⟩ "t1"
          emptyCheckpoints).executed
    ∧ (run_postprocessing_pipeline ⟨false⟩ ⟨true, false, true⟩ "t1"
          emptyCheckpoints).success = false
    ∧ statusOf (run_postprocessing_pipeline ⟨false⟩ ⟨true, false, true⟩ "t1"
          emptyCheckpoints).checkpoints "qa" ≠ some "failed"
    ∧ postprocessing_main_exit true ⟨true, false, true⟩ "t1" emptyCheckpoints ≠ 0 := by
  refine ⟨fun ff₁ ff₂ env now c => rfl, ?_, ?_, ?_, ?_, ?_⟩ <;> decide

/-- C1: the skip query returns `true` iff the current record for the step
has status `completed` (an absent record, or a `running`/`failed` one,
yields `false`); and with `--resume` (so the store is not cleared), a step
whose record is `completed` is never re-executed by the orchestrator:
`run_pipeline_step` returns at once without invoking the step body, and the
full pipeline loop never invokes that step's body. The `hbodies` hypothesis
states that the other step bodies do not rewrite this step's record, which
holds of the pipeline bodies since each saves only its own step names. -/
theorem C1_completed_never_rerun (s now : String) (st : ManagerState)
    (bodies : String → ManagerState → Bool × ManagerState)
    (hbodies : ∀ t st', statusOf ((bodies t st').2).checkpoints s
        = statusOf st'.checkpoints s)
    (hcomp : statusOf st.checkpoints s = some "completed") :
    (∀ c step, should_skip_step c step = true ↔ statusOf c step = some "completed")
    ∧ run_pipeline_step s now (bodies s) st
        = { state := st, bodyInvoked := false, raised := false }
    ∧ s ∉ (run_full_pipeline true now bodies st).invoked := by
  refine ⟨should_skip_iff, run_pipeline_step_of_completed s now (bodies s) st hcomp, ?_⟩
  unfold run_full_pipeline
  exact run_steps_not_invoked s now bodies hbodies _ st hcomp

/-- Concrete manager state whose `qc` record is `completed`. -/
def qcDoneState : ManagerState :=
  { file := none,
    checkpoints :=
      { last_completed_step := some "qc",
        steps := [("qc", { status := "completed", timestamp := "t0", metadata := [] })],
        last_updated := some "t0" } }

theorem C1_witness :
    (∀ c step, should_skip_step c step = true ↔ statusOf c step = some "completed")
    ∧ run_pipeline_step "qc" "t1" (fun st' => (true, st')) qcDoneState
        = { state := qcDoneState, bodyInvoked := false, raised := false }
    ∧ "qc" ∉ (run_full_pipeline true "t1" (fun _ st' => (true, st')) qcDoneState).invoked :=
  C1_completed_never_rerun "qc" "t1" qcDoneState (fun _ st' => (true, st'))
    (fun _ _ => rfl) rfl

/-- C6: for every restart step name in the canonical order
`fastqc < alignment < quantification < multiqc`, the restart logic disables
exactly the steps strictly before the restart point and leaves the restart
step itself and every later step enabled. The checkpoint store is not an
input to `applyRestartFrom` at all, so the behaviour is independent of
checkpoint content. -/
theorem C6_restart_from_disables_earlier (r t : String)
    (hr : r ∈ canonicalSteps) (ht : t ∈ canonicalSteps) :
    flagEnabled (applyRestartFrom (some r) initFlags) t
      = decide (canonicalIdx r ≤ canonicalIdx t) := by
  simp only [canonicalSteps, List.mem_cons, List.mem_nil_iff, or_false] at hr ht
  rcases hr with rfl | rfl | rfl | rfl <;>
    rcases ht with rfl | rfl | rfl | rfl <;> decide

theorem C6_witness :
    ("alignment" ∈ canonicalSteps ∧ "fastqc" ∈ canonicalSteps
      ∧ "quantification" ∈ canonicalSteps)
    ∧ flagEnabled (applyRestartFrom (some "alignment") initFlags) "fastqc"
        = decide (canonicalIdx "alignment" ≤ canonicalIdx "fastqc")
    ∧ flagEnabled (applyRestartFrom (some "alignment") initFlags) "alignment"
        = decide (canonicalIdx "alignment" ≤ canonicalIdx "alignment")
    ∧ flagEnabled (applyRestartFrom (some "alignment") initFlags) "quantification"
        = decide (canonicalIdx "alignment" ≤ canonicalIdx "quantification") :=
  ⟨⟨by decide, by decide, by decide⟩,
   C6_restart_from_disables_earlier "alignment" "fastqc" (by decide) (by decide),
   C6_restart_from_disables_earlier "alignment" "alignment" (by decide) (by decide),
   C6_restart_from_disables_earlier "alignment" "quantification" (by decide) (by decide)⟩

/-- C9: `resolve_path` leaves an already-absolute path unchanged, and — for
the absolute workspace roots the code computes from
`Path(__file__).resolve()` — resolving twice equals resolving once on every
path-valued field. -/
theorem C9_resolve_idempotent (root : String) (hroot : isAbsolute root = true) :
    (∀ p : String, isAbsolute p = true → resolve_path root (some p) = some p)
    ∧ (∀ p : Option String,
        resolve_path root (resolve_path root p) = resolve_path root p) := by
  have habs : ∀ t : String, isAbsolute (root ++ t) = true := by
    intro t
    unfold isAbsolute at hroot ⊢
    rw [String.data_append]
    cases hr : root.data with
    | nil => rw [hr] at hroot; simp at hroot
    | cons c cs =>
        rw [hr] at hroot
        simp only [List.cons_append, List.head?, decide_eq_true_eq,
          Option.some.injEq] at hroot ⊢
        exact hroot
  refine ⟨?_, ?_⟩
  · intro p hp
    simp [resolve_path, hp]
  · intro p
    cases p with
    | none => rfl
    | some s =>
        by_cases hs : isAbsolute s = true
        · simp [resolve_path, hs]
        · have hj : isAbsolute (joinPath root s) = true := by
            unfold joinPath; exact habs _
          simp [resolve_path, hs, hj]

theorem C9_witness :
    isAbsolute "/workspace" = true
    ∧ isAbsolute "/data/x.fq.gz" = true
    ∧ resolve_path "/workspace" (some "/data/x.fq.gz") = some "/data/x.fq.gz"
    ∧ resolve_path "/workspace" (resolve_path "/workspace" (some "results/qc"))
        = resolve_path "/workspace" (some "results/qc") :=
  ⟨rfl, rfl,
   (C9_resolve_idempotent "/workspace" rfl).1 "/data/x.fq.gz" rfl,
   (C9_resolve_idempotent "/workspace" rfl).2 (some "results/qc")⟩

/-- Concrete configuration holding the token at nesting depth 3. -/
def nestedConfig : List (String × ConfigValue) :=
  [("input", ConfigValue.dict
      [("nested", ConfigValue.dict
          [("file", ConfigValue.str "$\x7bsample\x7d_counts.tsv")])])]

/-- Concrete configuration holding the token at nesting depth 2. -/
def flatConfig : List (String × ConfigValue) :=
  [("input", ConfigValue.dict
      [("counts_file", ConfigValue.str "$\x7bsample\x7d_counts.tsv")])]

/-- C5 counterexample: a string value at nesting depth 3 contains the
placeholder token, yet after `process_sample_replacements` it is unchanged
(still holds the token), whereas the claim requires every such string, at
any depth, to be rewritten to the substituted form. -/
theorem C5_counterexample :
    pyContains "$\x7bsample\x7d_counts.tsv" sampleToken = true
    ∧ getPath (ConfigValue.dict (process_sample_replacements "S1" nestedConfig))
        ["input", "nested", "file"]
        = some (ConfigValue.str "$\x7bsample\x7d_counts.tsv")
    ∧ pyReplace "$\x7bsample\x7d_counts.tsv" sampleToken "S1" = "S1_counts.tsv"
    ∧ ("$\x7bsample\x7d_counts.tsv" : String) ≠ "S1_counts.tsv" :=
  ⟨rfl, rfl, rfl, by decide⟩

theorem getPath_substValue_cons (sample : String) (w : ConfigValue)
    (p : String) (rest : List String) :
    getPath (substValue sample w) (p :: rest) = getPath w (p :: rest) := by
  cases w with
  | str s => cases hs : pyContains s sampleToken <;> simp [substValue, hs, getPath]
  | num n => rfl
  | bool b => rfl
  | dict e => rfl
  | list l => rfl
  | null => rfl

theorem getPath_process_pair (sample : String) (config : List (String × ConfigValue))
    (sec key : String) :
    getPath (ConfigValue.dict (process_sample_replacements sample config)) [sec, key]
      = (getPath (ConfigValue.dict config) [sec, key]).map (substValue sample) := by
  simp only [getPath, process_sample_replacements, dictGet_map_value]
  cases dictGet config sec with
  | none => rfl
  | some secv =>
      cases secv with
      | dict entries =>
          simp only [Option.map_some', substSection, getPath, dictGet_map_value]
          cases dictGet entries key with
          | none => rfl
          | some w => rfl
      | str s => rfl
      | num n => rfl
      | bool b => rfl
      | list l => rfl
      | null => rfl

theorem getPath_process_deep (sample : String) (config : List (String × ConfigValue))
    (p₁ p₂ p₃ : String) (rest : List String) :
    getPath (ConfigValue.dict (process_sample_replacements sample config))
        (p₁ :: p₂ :: p₃ :: rest)
      = getPath (ConfigValue.dict config) (p₁ :: p₂ :: p₃ :: rest) := by
  simp only [getPath, process_sample_replacements, dictGet_map_value]
  cases dictGet config p₁ with
  | none => rfl
  | some secv =>
      cases secv with
      | dict entries =>
          simp only [Option.map_some', substSection, getPath, dictGet_map_value]
          cases dictGet entries p₂ with
          | none => rfl
          | some w =>
              simp only [Option.map_some']
              exact getPath_substValue_cons sample w p₃ rest
      | str s => rfl
      | num n => rfl
      | bool b => rfl
      | list l => rfl
      | null => rfl

/-- C5 amended: when a sample name is supplied, exactly the string values
that are direct members of a top-level mapping section and contain the
token are rewritten (by Python `str.replace` of the token with the sample
name); values nested three or more keys deep are left untouched. The
rewrite is an in-place assignment `config[section][key] = ...` in the
source — no copy of the configuration is made. -/
theorem C5_substitution_depth_two (sample : String)
    (config : List (String × ConfigValue)) :
    (∀ sec key v,
        getPath (ConfigValue.dict config) [sec, key] = some (ConfigValue.str v) →
        getPath (ConfigValue.dict (process_sample_replacements sample config)) [sec, key]
          = some (if pyContains v sampleToken
                  then ConfigValue.str (pyReplace v sampleToken sample)
                  else ConfigValue.str v))
    ∧ (∀ path : List String, 3 ≤ path.length →
        getPath (ConfigValue.dict (process_sample_replacements sample config)) path
          = getPath (ConfigValue.dict config) path) := by
  constructor
  · intro sec key v h
    rw [getPath_process_pair, h, Option.map_some']
    simp [substValue]
  · intro path hlen
    match path with
    | p₁ :: p₂ :: p₃ :: rest => exact getPath_process_deep sample config p₁ p₂ p₃ rest

theorem C5_witness :
    getPath (ConfigValue.dict flatConfig) ["input", "counts_file"]
        = some (ConfigValue.str "$\x7bsample\x7d_counts.tsv")
    ∧ getPath (ConfigValue.dict (process_sample_replacements "S1" flatConfig))
        ["input", "counts_file"]
        = some (if pyContains "$\x7bsample\x7d_counts.tsv" sampleToken
                then ConfigValue.str (pyReplace "$\x7bsample\x7d_counts.tsv" sampleToken "S1")
                else ConfigValue.str "$\x7bsample\x7d_counts.tsv")
    ∧ getPath (ConfigValue.dict (process_sample_replacements "S1" nestedConfig))
        ["input", "nested", "file"]
        = getPath (ConfigValue.dict nestedConfig) ["input", "nested", "file"] :=
  ⟨rfl,
   (C5_substitution_depth_two "S1" flatConfig).1 "input" "counts_file"
     "$\x7bsample\x7d_counts.tsv" rfl,
   (C5_substitution_depth_two "S1" nestedConfig).2 ["input", "nested", "file"]
     (by decide)⟩

/-- C7 counterexample: with a single configured backend whose configuration
section is missing, the loop records nothing into the summary, yet
`run_preprocessing_pipeline` still returns `True` and so the caller records
the step `completed` — refuting the claim's "completed if and only if at
least one backend produced a non-null result, else failed". -/
theorem C7_counterexample :
    alignerStats [⟨"hisat2", false, false, false, none⟩] = []
    ∧ (run_preprocessing_alignment [⟨"hisat2", false, false, false, none⟩]).2 = true
    ∧ recordedStatus
        (run_preprocessing_alignment [⟨"hisat2", false, false, false, none⟩]).2
        = "completed"
    ∧ ¬ (recordedStatus
          (run_preprocessing_alignment [⟨"hisat2", false, false, false, none⟩]).2
            = "completed"
        ↔ alignerStats [⟨"hisat2", false, false, false, none⟩] ≠ []) := by
  refine ⟨rfl, rfl, rfl, fun h => (h.mp rfl) rfl⟩

/-- C7 amended: one backend's unavailability or failure never aborts the
step — the failed backend contributes no entry to the summary and every
remaining backend still runs (the summary of the list with the failed
backend removed is identical); the summary is exactly the non-null results
in configured order; but the step is recorded `completed` unconditionally
when the pipeline function finishes, even when no backend produced a
result. -/
theorem C7_partial_backend_tolerance (pre post : List AlignerSpec)
    (bad : AlignerSpec) (hbad : alignerOutcome bad = none) :
    alignerStats (pre ++ bad :: post) = alignerStats (pre ++ post)
    ∧ (∀ aligners : List AlignerSpec,
        alignerStats aligners
          = aligners.filterMap
              (fun a => (alignerOutcome a).map (fun bam => (a.name, bam))))
    ∧ recordedStatus (run_preprocessing_alignment (pre ++ bad :: post)).2
        = "completed" := by
  refine ⟨?_, ?_, rfl⟩
  · induction pre with
    | nil => simp [alignerStats, hbad]
    | cons a rest ih =>
        cases h : alignerOutcome a <;> simp [alignerStats, h, ih]
  · intro aligners
    induction aligners with
    | nil => rfl
    | cons a rest ih =>
        cases h : alignerOutcome a <;>
          simp [alignerStats, h, ih, List.filterMap_cons]

theorem C7_witness :
    alignerStats [⟨"hisat2", true, false, false, none⟩,
                  ⟨"kallisto", true, true, true, some "y.bam"⟩]
        = alignerStats [⟨"kallisto", true, true, true, some "y.bam"⟩]
    ∧ (∀ aligners : List AlignerSpec,
        alignerStats aligners
          = aligners.filterMap
              (fun a => (alignerOutcome a).map (fun bam => (a.name, bam))))
    ∧ recordedStatus
        (run_preprocessing_alignment
          [⟨"hisat2", true, false, false, none⟩,
           ⟨"kallisto", true, true, true, some "y.bam"⟩]).2
        = "completed" :=
  C7_partial_backend_tolerance [] [⟨"kallisto", true, true, true, some "y.bam"⟩]
    ⟨"hisat2", true, false, false, none⟩ rfl

end BulkRNASeq
